import Mathlib

/-!
# poule: single-operation dispatch and the label operation

A shallow embedding of `cmd/poule/helpers.go` and
`poule/operations/catalog/label.go`.

* Go `error` values are `Option Error` (`none` is `nil`).
* Calls that leave the repository sources at hand (`operations.Run`,
  `config.Validate`, `settings.ParseCliFilters`, `regexp.Compile`, the GitHub
  client) are fields of an environment record; they thread an arbitrary remote
  state `σ`, and every call is appended to an event log so that "is invoked",
  "is never invoked" and "before" are statements about that log.
* A Go run-time panic is `Except.error`.
-/

namespace Poule

/-- A Go `error` value that is not `nil`, identified by its message. -/
abbrev Error := String

/-- The function `errors.Wrap` of `github.com/pkg/errors`: `nil` stays `nil`, any other
error gets the message in front. -/
def errorsWrap (err : Option Error) (message : String) : Option Error :=
  match err with
  | none => none
  | some e => some (message ++ ": " ++ e)

/-! ## Package `operations` (declarations used by the sources) -/

/-- Modelled from the spec: `operations.AcceptedType` is not among the sources; §3 calls
it "a bitmask over {Issues, PullRequests}", combined by bitwise OR and tested by bitwise
AND. It is a natural number read as a bit vector. -/
abbrev AcceptedType := Nat

/-- Modelled from the spec: the constant `operations.Issues`, the first bit of the
mask. -/
def Issues : AcceptedType := 1

/-- Modelled from the spec: the constant `operations.PullRequests`, the second bit of
the mask. -/
def PullRequests : AcceptedType := 2

/-- The two runner values handed to `operations.Run`: `&operations.IssueRunner{}` and
`&operations.PullRequestRunner{}`. -/
inductive Runner where
  | IssueRunner
  | PullRequestRunner
  deriving DecidableEq, Repr

/-- The part of the interface `operations.Operation` that `helpers.go` calls. -/
structure Operation where
  /-- The result of the method `Accepts()`. -/
  Accepts : AcceptedType
  deriving DecidableEq, Repr

/-! ## Package `settings` (declarations used by the sources) -/

/-- Modelled from the spec: the strategy stored in a `settings.Filter` (§3: "polymorphic
over variants: kind-filter, label-filter, age-filter, …"). `IsFilter` is the
kind-restricting strategy with its `PullRequestOnly` field, the only variant the sources
inspect; every other dynamic type is `other`. -/
inductive FilterStrategy where
  | IsFilter (PullRequestOnly : Bool)
  | other (kind : String)
  deriving DecidableEq, Repr

/-- Modelled from the spec: `settings.Filter`, a wrapper around a strategy. -/
structure Filter where
  Strategy : FilterStrategy
  deriving DecidableEq, Repr

/-- Modelled from the spec: `configuration.Config`, the global run settings of §3. -/
structure Config where
  DryRun : Bool
  Delay : Nat
  Repository : String
  Token : String
  TokenFile : String
  deriving DecidableEq, Repr

/-- Modelled from the spec: the `cli.Context` handed to a command: its positional
arguments and its flags. -/
structure CliContext where
  Args : List String
  Flags : List (String × String)
  deriving DecidableEq, Repr

/-! ## Events and the environment -/

/-- One entry of the call log. -/
inductive Event where
  | fromGlobalFlags
  | validate
  | parseCliFilters
  | operationFromCli
  | run (runner : Runner) (result : Option Error)
  deriving DecidableEq, Repr

/-- The remote state together with the log of calls made so far. -/
structure World (σ : Type) where
  remote : σ
  log : List Event

/-- The collaborators of `helpers.go` whose bodies are outside the sources. -/
structure Env (σ : Type) where
  /-- The function `configuration.FromGlobalFlags`. -/
  FromGlobalFlags : CliContext → Config
  /-- The method `(*configuration.Config).Validate`. -/
  Validate : Config → Option Error
  /-- The function `settings.ParseCliFilters`. -/
  ParseCliFilters : CliContext → List Filter × Option Error
  /-- The engine `operations.Run`, acting on the remote state. -/
  Run : Config → Operation → Runner → List Filter → σ → Option Error × σ

/-- A call of `operations.Run`: the engine acts on the remote state and the call is
logged with the runner and the error it returned. -/
def operationsRun {σ : Type} (env : Env σ) (c : Config) (op : Operation) (runner : Runner)
    (filters : List Filter) (w : World σ) : Option Error × World σ :=
  let r := env.Run c op runner filters w.remote
  (r.1, { remote := r.2, log := w.log ++ [Event.run runner r.1] })

/-! ## `cmd/poule/helpers.go` -/

/-- The function `filterIncludesIssues`: `false` at the first `IsFilter` with
`PullRequestOnly`, `true` when the loop ends. -/
def filterIncludesIssues : List Filter → Bool
  | [] => true
  | filter :: rest =>
    match filter.Strategy with
    | .IsFilter pullRequestOnly =>
      if pullRequestOnly then false else filterIncludesIssues rest
    | .other _ => filterIncludesIssues rest

/-- The function `filterIncludesPullRequests`: `false` at the first `IsFilter` without
`PullRequestOnly`, `true` when the loop ends. -/
def filterIncludesPullRequests : List Filter → Bool
  | [] => true
  | filter :: rest =>
    match filter.Strategy with
    | .IsFilter pullRequestOnly =>
      if !pullRequestOnly then false else filterIncludesPullRequests rest
    | .other _ => filterIncludesPullRequests rest

/-- The second `if` of `runSingleOperation` and the final `return nil`. -/
def runPullRequests {σ : Type} (env : Env σ) (c : Config) (op : Operation)
    (filters : List Filter) (w : World σ) : Option Error × World σ :=
  if filterIncludesPullRequests filters && (op.Accepts &&& PullRequests == PullRequests) then
    match operationsRun env c op Runner.PullRequestRunner filters w with
    | (some err, w') => (some err, w')
    | (none, w') => (none, w')
  else
    (none, w)

/-- The function `runSingleOperation`. -/
def runSingleOperation {σ : Type} (env : Env σ) (c : Config) (op : Operation)
    (filters : List Filter) (w : World σ) : Option Error × World σ :=
  if filterIncludesIssues filters && (op.Accepts &&& Issues == Issues) then
    match operationsRun env c op Runner.IssueRunner filters w with
    | (some err, w') => (some err, w')
    | (none, w') => runPullRequests env c op filters w'
  else
    runPullRequests env c op filters w

/-- The method `OperationFromCli` of a `catalog.OperationDescriptor`: Go returns the pair
of operation and error. -/
structure OperationDescriptor where
  OperationFromCli : CliContext → Option Operation × Option Error

/-- The function `executeSingleOperation`. When the descriptor returns a `nil` operation
with a `nil` error, the first evaluation of `op.Accepts()` goes through a nil interface, a
run-time panic; `&&` evaluates it only when the filter test before it holds. -/
def executeSingleOperation {σ : Type} (env : Env σ) (c : CliContext)
    (descriptor : OperationDescriptor) (w : World σ) : Except String (Option Error × World σ) :=
  let config := env.FromGlobalFlags c
  let w0 : World σ := { w with log := w.log ++ [Event.fromGlobalFlags] }
  let w1 : World σ := { w0 with log := w0.log ++ [Event.validate] }
  match env.Validate config with
  | some err => .ok (some err, w1)
  | none =>
    let w2 : World σ := { w1 with log := w1.log ++ [Event.parseCliFilters] }
    match env.ParseCliFilters c with
    | (_, some err) => .ok (some err, w2)
    | (f, none) =>
      let w3 : World σ := { w2 with log := w2.log ++ [Event.operationFromCli] }
      match descriptor.OperationFromCli c with
      | (_, some err) => .ok (some err, w3)
      | (some op, none) => .ok (runSingleOperation env config op f w3)
      | (none, none) =>
        if filterIncludesIssues f || filterIncludesPullRequests f then
          .error "runtime error: invalid memory address or nil pointer dereference"
        else
          .ok (none, w3)

/-! ## Go maps -/

/-- A Go `map[string]α`: its entries, with pairwise different keys. -/
structure GoMap (α : Type) where
  entries : List (String × α)
  nodup : (entries.map Prod.fst).Nodup

/-- The order in which one `range` statement walks a map: Go leaves it unspecified, so it
is an arbitrary rearrangement of the entries. -/
structure RangeOrder (α : Type) where
  visit : List (String × α) → List (String × α)
  perm : ∀ l, (visit l).Perm l

/-- The empty map literal `map[string]α{}`. -/
def GoMap.empty {α : Type} : GoMap α := ⟨[], List.nodup_nil⟩

/-- The number of entries, `len(m)`. -/
def GoMap.len {α : Type} (m : GoMap α) : Nat := m.entries.length

/-- The index expression `v, ok := m[key]`. -/
def GoMap.get? {α : Type} (m : GoMap α) (key : String) : Option α :=
  (m.entries.find? (fun e => e.1 == key)).map Prod.snd

/-- Whether `_, ok := m[key]` reports `ok`. -/
def GoMap.contains {α : Type} (m : GoMap α) (key : String) : Bool :=
  (m.get? key).isSome

theorem GoMap.set_nodup {α : Type} (m : GoMap α) (key : String) (value : α) :
    ((m.entries.filter (fun e => e.1 != key) ++ [(key, value)]).map Prod.fst).Nodup := by
  rw [List.map_append, List.nodup_append]
  refine ⟨(m.nodup.sublist ((List.filter_sublist _).map _)), by simp, ?_⟩
  intro a ha hb
  simp only [List.map_cons, List.map_nil, List.mem_singleton] at hb
  subst hb
  simp at ha

/-- The assignment `m[key] = value`: any entry of that key is replaced. -/
def GoMap.set {α : Type} (m : GoMap α) (key : String) (value : α) : GoMap α :=
  ⟨m.entries.filter (fun e => e.1 != key) ++ [(key, value)], GoMap.set_nodup m key value⟩

/-! ## Package `regexp`, package `gh` and the interface values -/

/-- A compiled `*regexp.Regexp`: the expression it was compiled from and its method
`MatchString`. -/
structure Regexp where
  expr : String
  MatchString : String → Bool

/-- Modelled from the spec: the issue behind a `gh.Item`, with the two fields the sources
read (§6: "an item's textual body and numeric identifier"). The sources reach both through
a pointer: `Body` is `none` for a nil pointer, an issue without a description; the number
is the identifier the tracker gives every item. -/
structure Issue where
  Number : Int
  Body : Option String
  deriving DecidableEq, Repr

/-- Modelled from the spec: the pull request behind a `gh.Item`, with the two fields the
sources read; `Body` is `none` for a nil pointer. -/
structure PullRequest where
  Number : Int
  Body : Option String
  deriving DecidableEq, Repr

/-- Modelled from the spec: `gh.Item`, "a sum type over {Issue, PullRequest}" of which
"exactly one of the two representations is populated" (§3). -/
inductive Item where
  | issue (i : Issue)
  | pullRequest (p : PullRequest)
  deriving DecidableEq, Repr

/-- The method `IsIssue`. -/
def Item.IsIssue : Item → Bool
  | .issue _ => true
  | .pullRequest _ => false

/-- The method `IsPullRequest`. -/
def Item.IsPullRequest : Item → Bool
  | .issue _ => false
  | .pullRequest _ => true

/-- The method `Issue`: the issue pointer, `nil` on a pull request. -/
def Item.Issue : Item → Option Issue
  | .issue i => some i
  | .pullRequest _ => none

/-- The method `PullRequest`: the pull request pointer, `nil` on an issue. -/
def Item.PullRequest : Item → Option PullRequest
  | .issue _ => none
  | .pullRequest p => some p

/-- A value of type `interface{}` as the label operation passes it around. -/
inductive UserData where
  | nil
  | string (s : String)
  | strings (l : List String)
  deriving DecidableEq, Repr

/-- The type `operations.FilterResult`. -/
inductive FilterResult where
  | Accept
  | Reject
  deriving DecidableEq, Repr

/-- One call of `AddLabelsToIssue` as the GitHub client receives it. -/
structure AddLabelsCall where
  owner : String
  repo : String
  number : Int
  labels : List String
  deriving DecidableEq, Repr

/-- The remote state seen through the GitHub client, with the calls made on it. -/
structure Remote (σ : Type) where
  state : σ
  calls : List AddLabelsCall

/-- The fields of `operations.Context` that `label.go` reads; the client is its method
`Issues().AddLabelsToIssue`, of which only the error is kept. -/
structure Context (σ : Type) where
  Username : String
  Repository : String
  AddLabelsToIssue : String → String → Int → List String → σ → Option Error × σ

/-! ## `poule/operations/catalog/label.go` -/

/-- The type `labelOperation`. -/
structure labelOperation where
  patterns : GoMap (List Regexp)

/-- The method `Accepts`. -/
def labelOperation.Accepts (_o : labelOperation) : AcceptedType :=
  Issues ||| PullRequests

/-- A label operation as a value of the interface `operations.Operation`. -/
def labelOperation.toOperation (o : labelOperation) : Operation :=
  { Accepts := o.Accepts }

/-- The dereference `*p` of a string pointer: a run-time panic on `nil`. -/
def derefBody (p : Option String) : Except String String :=
  match p with
  | some body => .ok body
  | none => .error "runtime error: invalid memory address or nil pointer dereference"

/-- The function `itemBody`: `*item.Issue().Body` or `*item.PullRequest().Body`. -/
def itemBody (item : Item) : Except String String :=
  if item.IsIssue then
    match item.Issue with
    | some i => derefBody i.Body
    | none => .error "runtime error: invalid memory address or nil pointer dereference"
  else if item.IsPullRequest then
    match item.PullRequest with
    | some p => derefBody p.Body
    | none => .error "runtime error: invalid memory address or nil pointer dereference"
  else
    .error "unreachable"

/-- The function `itemNumber`. -/
def itemNumber (item : Item) : Except String Int :=
  if item.IsIssue then
    match item.Issue with
    | some i => .ok i.Number
    | none => .error "runtime error: invalid memory address or nil pointer dereference"
  else if item.IsPullRequest then
    match item.PullRequest with
    | some p => .ok p.Number
    | none => .error "runtime error: invalid memory address or nil pointer dereference"
  else
    .error "unreachable"

/-- The inner loop of `Filter`: the first matching pattern puts the label in the set and
ends the loop. -/
def matchPatterns (label : String) (itemBody : String) :
    List Regexp → GoMap Unit → GoMap Unit
  | [], labelSet => labelSet
  | pattern :: rest, labelSet =>
    if pattern.MatchString itemBody then labelSet.set label ()
    else matchPatterns label itemBody rest labelSet

/-- The outer loop of `Filter` over the entries of `o.patterns` in the order visited. -/
def collectLabels (itemBody : String) :
    List (String × List Regexp) → GoMap Unit → GoMap Unit
  | [], labelSet => labelSet
  | (label, patterns) :: rest, labelSet =>
    if labelSet.contains label then collectLabels itemBody rest labelSet
    else collectLabels itemBody rest (matchPatterns label itemBody patterns labelSet)

/-- The last loop of `Filter`: the keys of the set appended to `[]string{}` in the order
visited. -/
def labelSlice (visited : List (String × Unit)) : List String :=
  visited.foldl (fun labels e => labels ++ [e.1]) []

/-- The method `Filter`; the two orders are those of its two `range` statements over
maps. -/
def labelOperation.Filter (o : labelOperation) (patternsOrder : RangeOrder (List Regexp))
    (labelSetOrder : RangeOrder Unit) (item : Item) :
    Except String (FilterResult × UserData × Option Error) :=
  match itemBody item with
  | .error p => .error p
  | .ok body =>
    let labelSet := collectLabels body (patternsOrder.visit o.patterns.entries) GoMap.empty
    if labelSet.len == 0 then
      .ok (FilterResult.Reject, UserData.nil, none)
    else
      let labels := labelSlice (labelSetOrder.visit labelSet.entries)
      .ok (FilterResult.Accept, UserData.strings labels, none)

/-- The method `Apply`. The arguments of `AddLabelsToIssue` are evaluated before the call:
`itemNumber(item)`, then the type assertion `userData.(string)`, which panics on any other
dynamic type. -/
def labelOperation.Apply {σ : Type} (_o : labelOperation) (c : Context σ) (item : Item)
    (userData : UserData) (w : Remote σ) : Except String (Option Error × Remote σ) :=
  match itemNumber item with
  | .error p => .error p
  | .ok number =>
    match userData with
    | .string s =>
      let r := c.AddLabelsToIssue c.Username c.Repository number [s] w.state
      .ok (r.1, { state := r.2,
                  calls := w.calls ++ [⟨c.Username, c.Repository, number, [s]⟩] })
    | .strings _ => .error "interface conversion: interface \x7b\x7d is []string, not string"
    | .nil => .error "interface conversion: interface \x7b\x7d is nil, not string"

/-- The function `strings.Join`: nothing for no element, the element itself for one,
otherwise the first element followed by separator and element for each of the rest. -/
def stringsJoin : List String → String → String
  | [], _ => ""
  | [e], _ => e
  | e :: rest, sep => rest.foldl (fun b s => b ++ sep ++ s) e

/-- An operand of `fmt.Sprintf`. -/
inductive FmtArg where
  | str (s : String)
  | int (n : Int)
  deriving DecidableEq, Repr

/-- The verb `%d` on an `int`: a minus sign for a negative number, then the decimal
digits of the magnitude. -/
def formatDecimal (n : Int) : String :=
  if n < 0 then "-" ++ Nat.repr n.natAbs else Nat.repr n.natAbs

/-- The text a verb of `fmt.Sprintf` produces for an operand of its own type: `%s` on a
string and `%d` on an integer, the two uses in the sources. -/
def formatVerb (verb : Char) (arg : FmtArg) : Option (List Char) :=
  match arg with
  | .str s => if verb = 's' then some s.toList else none
  | .int n => if verb = 'd' then some (formatDecimal n).toList else none

/-- The scan of a format: a verb on an operand of its type consumes that operand, any
other character is copied. Verbs on operands of another type do not occur in the sources
and are left as text. -/
def sprintfChars : List Char → List FmtArg → List Char
  | [], _ => []
  | [c], _ => [c]
  | c :: v :: rest, [] => c :: sprintfChars (v :: rest) []
  | c :: v :: rest, a :: args =>
    match (if c = '%' then formatVerb v a else none) with
    | some out => out ++ sprintfChars rest args
    | none => c :: sprintfChars (v :: rest) (a :: args)

/-- The function `fmt.Sprintf` on the verbs `%s` and `%d`. -/
def Sprintf (format : String) (args : List FmtArg) : String :=
  String.mk (sprintfChars format.toList args)

/-- The method `Describe`: the type assertion `userData.([]string)` panics on any other
dynamic type. -/
def labelOperation.Describe {σ : Type} (_o : labelOperation) (_c : Context σ) (item : Item)
    (userData : UserData) : Except String String :=
  match userData with
  | .strings labels =>
    match itemNumber item with
    | .error p => .error p
    | .ok number =>
      .ok (Sprintf "Adding labels %s to item #%d"
        [FmtArg.str (stringsJoin labels ", "), FmtArg.int number])
  | .string _ => .error "interface conversion: interface \x7b\x7d is string, not []string"
  | .nil => .error "interface conversion: interface \x7b\x7d is nil, not []string"

/-- Modelled from the spec: `settings.MultiValuedKeys`, "a mapping from key to
one-or-many values" (§4.1). -/
abbrev MultiValuedKeys := GoMap (List String)

/-- The values of one key handed to the callback, until it returns an error. -/
def forEachValue {τ : Type} (key : String) (fn : String → String → τ → Option Error × τ) :
    List String → τ → Option Error × τ
  | [], s => (none, s)
  | value :: rest, s =>
    match fn key value s with
    | (some err, s') => (some err, s')
    | (none, s') => forEachValue key fn rest s'

/-- The entries handed to the callback, until it returns an error. -/
def forEachEntry {τ : Type} (fn : String → String → τ → Option Error × τ) :
    List (String × List String) → τ → Option Error × τ
  | [], s => (none, s)
  | (key, values) :: rest, s =>
    match forEachValue key fn values s with
    | (some err, s') => (some err, s')
    | (none, s') => forEachEntry fn rest s'

/-- Modelled from the spec: the method `MultiValuedKeys.ForEach` is not among the sources.
It hands every key/value pair to the callback (§8: iterating "yields exactly the key/value
pairs supplied", the values of a key in insertion order) and the first error the callback
returns ends the iteration and is the result (§4.3: a failure is "reported immediately").
The callback acts on the variables it captures, here a state `τ`. -/
def MultiValuedKeys.ForEach {τ : Type} (m : MultiValuedKeys) (order : RangeOrder (List String))
    (fn : String → String → τ → Option Error × τ) (s : τ) : Option Error × τ :=
  forEachEntry fn (order.visit m.entries) s

/-- The type `labelOperationConfig`. -/
structure labelOperationConfig where
  Patterns : MultiValuedKeys

/-- The collaborators of the label descriptor whose bodies are outside the sources. -/
structure LabelEnv where
  /-- The function `settings.NewMultiValuedKeysFromSlice`. -/
  NewMultiValuedKeysFromSlice : List String → MultiValuedKeys × Option Error
  /-- The function `regexp.Compile`. -/
  Compile : String → Except Error Regexp
  /-- The order of the `range` inside `ForEach`. -/
  order : RangeOrder (List String)

/-- The callback of `makeOperation`, acting on the captured map `patterns`. -/
def compilePattern (compile : String → Except Error Regexp) (key value : String)
    (patterns : GoMap (List Regexp)) : Option Error × GoMap (List Regexp) :=
  match compile value with
  | .error err => (errorsWrap (some err) "invalid pattern", patterns)
  | .ok re => (none, patterns.set key ((patterns.get? key).getD [] ++ [re]))

/-- The method `labelDescriptor.makeOperation`: the operation is returned next to the
error of `ForEach`. -/
def makeOperation (lenv : LabelEnv) (config : labelOperationConfig) :
    labelOperation × Option Error :=
  let r := config.Patterns.ForEach lenv.order (compilePattern lenv.Compile) GoMap.empty
  ({ patterns := r.2 }, r.1)

/-- The method `labelDescriptor.OperationFromCli`. -/
def labelOperationFromCli (lenv : LabelEnv) (c : CliContext) :
    Option Operation × Option Error :=
  match lenv.NewMultiValuedKeysFromSlice c.Args with
  | (_, some err) => (none, errorsWrap (some err) "parsing command line")
  | (patterns, none) =>
    let r := makeOperation lenv { Patterns := patterns }
    (some r.1.toOperation, r.2)

/-- The type `labelDescriptor` as a `catalog.OperationDescriptor`. -/
def labelDescriptor (lenv : LabelEnv) : OperationDescriptor :=
  { OperationFromCli := labelOperationFromCli lenv }

/-! ## Reading the log -/

/-- The events logged between two worlds of one execution. -/
def newEvents {σ : Type} (before after : World σ) : List Event :=
  after.log.drop before.log.length

/-- Whether an event is a call of `operations.Run` with the given runner. -/
def Event.isRunOf (runner : Runner) : Event → Bool
  | .run r _ => decide (r = runner)
  | _ => false

/-- The events `runSingleOperation` adds to the log. -/
def dispatched {σ : Type} (env : Env σ) (c : Config) (op : Operation)
    (filters : List Filter) (w : World σ) : List Event :=
  newEvents w (runSingleOperation env c op filters w).2

/-- How many times `operations.Run` was called with the given runner. -/
def runCount (runner : Runner) (events : List Event) : Nat :=
  (events.filter (Event.isRunOf runner)).length

/-- The filter set holds an `IsFilter` strategy with the given `PullRequestOnly`. -/
def hasIsFilter (pullRequestOnly : Bool) (filters : List Filter) : Prop :=
  ∃ f ∈ filters, f.Strategy = FilterStrategy.IsFilter pullRequestOnly

instance (b : Bool) (filters : List Filter) : Decidable (hasIsFilter b filters) := by
  unfold hasIsFilter; infer_instance

/-! ## Reading the label operation -/

/-- The keys of a map. -/
def GoMap.keys {α : Type} (m : GoMap α) : List String := m.entries.map Prod.fst

/-- The body of an item, whichever kind it is; `none` when the item has none. -/
def Item.body : Item → Option String
  | .issue i => i.Body
  | .pullRequest p => p.Body

/-- The number of an item, whichever kind it is. -/
def Item.number : Item → Int
  | .issue i => i.Number
  | .pullRequest p => p.Number

/-- The label has at least one pattern matching the body. -/
def labelMatches (o : labelOperation) (body : String) (label : String) : Prop :=
  ∃ patterns, (label, patterns) ∈ o.patterns.entries ∧
    ∃ pattern ∈ patterns, pattern.MatchString body = true

/-- The description the spec gives for `Describe`: "Adding labels ", the labels joined
with ", " in list order, " to item #", the number in decimal. -/
def describeSpec (labels : List String) (number : Int) : String :=
  "Adding labels " ++ String.intercalate ", " labels ++ " to item #" ++ toString number

/-! ## Sample collaborators for the concrete instances -/

/-- Whether the characters `needle` occur consecutively in `hay`. -/
def occursIn (needle : List Char) : List Char → Bool
  | [] => needle.isEmpty
  | c :: rest => needle.isPrefixOf (c :: rest) || occursIn needle rest

/-- The regexp a metacharacter-free expression compiles to: `MatchString` holds exactly
when the expression occurs in the text. -/
def literalRegexp (expr : String) : Regexp :=
  { expr := expr, MatchString := fun text => occursIn expr.toList text.toList }

/-- The order that visits a map as its entries are listed. -/
def RangeOrder.listed (α : Type) : RangeOrder α :=
  { visit := fun l => l, perm := fun l => List.Perm.refl l }

/-- The order that visits a map from its last listed entry to its first. -/
def RangeOrder.reversed (α : Type) : RangeOrder α :=
  { visit := fun l => l.reverse, perm := fun l => List.reverse_perm l }

/-- The label operation of the spec: patterns `bug: [crash]`, `docs: [typo]`. -/
def sampleLabelOperation : labelOperation :=
  { patterns := ⟨[("bug", [literalRegexp "crash"]), ("docs", [literalRegexp "typo"])],
      by decide⟩ }

/-- A label operation whose label `bug` has two patterns, next to `docs`. -/
def twoPatternLabelOperation : labelOperation :=
  { patterns := ⟨[("docs", [literalRegexp "typo"]),
      ("bug", [literalRegexp "crash", literalRegexp "bug"])], by decide⟩ }

/-- Sample collaborators of the label descriptor: every argument is taken as a pattern
of the label `bug`; an expression without metacharacters compiles to its literal regexp
and the expression `(` is refused, as its group is never closed. -/
def sampleLabelEnv : LabelEnv :=
  { NewMultiValuedKeysFromSlice := fun args => (⟨[("bug", args)], by simp⟩, none)
    Compile := fun value =>
      if value = "(" then .error "missing closing )" else .ok (literalRegexp value)
    order := RangeOrder.listed _ }

/-- A sample context on a call counter whose client accepts every call. -/
def sampleContext : Context Nat :=
  { Username := "docker", Repository := "docker",
    AddLabelsToIssue := fun _ _ _ _ n => (none, n + 1) }


/-- A sample environment on a call counter: the configuration comes from the flag
`repository`, validation wants it non-empty, the filters come from the arguments `is:pr`
and `is:issue`, and the engine returns the given error for each runner. -/
def sampleEnv (issueResult prResult : Option Error) : Env Nat :=
  { FromGlobalFlags := fun c =>
      { DryRun := false, Delay := 10, Repository := (c.Flags.lookup "repository").getD "",
        Token := "t", TokenFile := "" }
    Validate := fun config => if config.Repository = "" then some "repository missing" else none
    ParseCliFilters := fun c =>
      if c.Args.contains "is:bad" then ([], some "invalid filter") else
      (c.Args.filterMap (fun a =>
        if a = "is:pr" then some ⟨FilterStrategy.IsFilter true⟩
        else if a = "is:issue" then some ⟨FilterStrategy.IsFilter false⟩
        else none), none)
    Run := fun _ _ runner _ n =>
      (match runner with
        | .IssueRunner => issueResult
        | .PullRequestRunner => prResult, n + 1) }

/-- A sample configuration. -/
def sampleConfig : Config :=
  { DryRun := false, Delay := 10, Repository := "docker/docker", Token := "t", TokenFile := "" }

/-- The world before anything ran. -/
def World.initial : World Nat := { remote := 0, log := [] }

/-! # Theorems -/

/-! ## Lemmas on the filter tests -/

theorem filterIncludesIssues_eq_false_iff (filters : List Filter) :
    filterIncludesIssues filters = false ↔ hasIsFilter true filters := by
  induction filters with
  | nil => simp [filterIncludesIssues, hasIsFilter]
  | cons f rest ih =>
    obtain ⟨s⟩ := f
    cases s with
    | IsFilter b =>
      cases b <;> simp [filterIncludesIssues, hasIsFilter, ih]
    | other k => simp [filterIncludesIssues, hasIsFilter, ih]

theorem filterIncludesPullRequests_eq_false_iff (filters : List Filter) :
    filterIncludesPullRequests filters = false ↔ hasIsFilter false filters := by
  induction filters with
  | nil => simp [filterIncludesPullRequests, hasIsFilter]
  | cons f rest ih =>
    obtain ⟨s⟩ := f
    cases s with
    | IsFilter b =>
      cases b <;> simp [filterIncludesPullRequests, hasIsFilter, ih]
    | other k => simp [filterIncludesPullRequests, hasIsFilter, ih]

theorem filterIncludesIssues_eq_true_iff (filters : List Filter) :
    filterIncludesIssues filters = true ↔ ¬ hasIsFilter true filters := by
  rw [← filterIncludesIssues_eq_false_iff]; simp

theorem filterIncludesPullRequests_eq_true_iff (filters : List Filter) :
    filterIncludesPullRequests filters = true ↔ ¬ hasIsFilter false filters := by
  rw [← filterIncludesPullRequests_eq_false_iff]; simp

theorem and_Issues_iff (a : AcceptedType) : a &&& Issues = Issues ↔ a.testBit 0 = true := by
  simp [Issues, Nat.and_one_is_mod, Nat.testBit_zero]

theorem and_PullRequests_iff (a : AcceptedType) :
    a &&& PullRequests = PullRequests ↔ a.testBit 1 = true := by
  have h := Nat.and_two_pow a 1
  simp only [pow_one] at h
  unfold PullRequests
  rw [h]
  cases a.testBit 1 <;> simp

/-! ## Lemmas on the dispatch -/

theorem newEvents_of_append {σ : Type} (before after : World σ) (events : List Event)
    (h : after.log = before.log ++ events) : newEvents before after = events := by
  simp [newEvents, h]

theorem runPullRequests_eq {σ : Type} (env : Env σ) (c : Config) (op : Operation)
    (filters : List Filter) (w : World σ) :
    runPullRequests env c op filters w =
      if filterIncludesPullRequests filters && (op.Accepts &&& PullRequests == PullRequests)
      then operationsRun env c op Runner.PullRequestRunner filters w else (none, w) := by
  unfold runPullRequests
  split
  · rcases h : operationsRun env c op Runner.PullRequestRunner filters w with ⟨_ | e, w'⟩ <;> rfl
  · rfl

/-- The events of `runSingleOperation`, in order: the issue run when issues are eligible,
then the pull-request run when pull requests are eligible and the issue run, if any,
returned `nil`; the pull-request run starts from the remote state the issue run left. -/
theorem runSingleOperation_events {σ : Type} (env : Env σ) (c : Config) (op : Operation)
    (filters : List Filter) (w : World σ) :
    newEvents w (runSingleOperation env c op filters w).2 =
      (if filterIncludesIssues filters && (op.Accepts &&& Issues == Issues) then
        [Event.run Runner.IssueRunner (env.Run c op Runner.IssueRunner filters w.remote).1]
       else []) ++
      (if filterIncludesPullRequests filters && (op.Accepts &&& PullRequests == PullRequests) then
        if filterIncludesIssues filters && (op.Accepts &&& Issues == Issues) then
          match env.Run c op Runner.IssueRunner filters w.remote with
          | (some _, _) => []
          | (none, s) =>
            [Event.run Runner.PullRequestRunner
              (env.Run c op Runner.PullRequestRunner filters s).1]
        else
          [Event.run Runner.PullRequestRunner
            (env.Run c op Runner.PullRequestRunner filters w.remote).1]
       else []) := by
  apply newEvents_of_append
  unfold runSingleOperation
  simp only [runPullRequests_eq, operationsRun]
  by_cases hi : (filterIncludesIssues filters && (op.Accepts &&& Issues == Issues)) = true <;>
    by_cases hp : (filterIncludesPullRequests filters &&
        (op.Accepts &&& PullRequests == PullRequests)) = true
  all_goals simp only [hi, hp, if_true, if_false]
  all_goals
    rcases hr : env.Run c op Runner.IssueRunner filters w.remote with ⟨_ | e, s⟩ <;> simp [hr]

/-- The error `runSingleOperation` returns: that of the issue run when it ran and failed,
otherwise that of the pull-request run when it ran, otherwise `nil`. -/
theorem runSingleOperation_result {σ : Type} (env : Env σ) (c : Config) (op : Operation)
    (filters : List Filter) (w : World σ) :
    (runSingleOperation env c op filters w).1 =
      if filterIncludesIssues filters && (op.Accepts &&& Issues == Issues) then
        match env.Run c op Runner.IssueRunner filters w.remote with
        | (some e, _) => some e
        | (none, s) =>
          if filterIncludesPullRequests filters && (op.Accepts &&& PullRequests == PullRequests)
          then (env.Run c op Runner.PullRequestRunner filters s).1 else none
      else
        if filterIncludesPullRequests filters && (op.Accepts &&& PullRequests == PullRequests)
        then (env.Run c op Runner.PullRequestRunner filters w.remote).1 else none := by
  unfold runSingleOperation
  simp only [runPullRequests_eq, operationsRun]
  by_cases hi : (filterIncludesIssues filters && (op.Accepts &&& Issues == Issues)) = true <;>
    by_cases hp : (filterIncludesPullRequests filters &&
        (op.Accepts &&& PullRequests == PullRequests)) = true
  all_goals simp only [hi, hp, if_true, if_false]
  all_goals
    rcases hr : env.Run c op Runner.IssueRunner filters w.remote with ⟨_ | e, s⟩ <;> simp [hr]

theorem issues_eligible_iff (filters : List Filter) (op : Operation) :
    (filterIncludesIssues filters && (op.Accepts &&& Issues == Issues)) = true ↔
      ¬ hasIsFilter true filters ∧ op.Accepts.testBit 0 = true := by
  rw [Bool.and_eq_true, filterIncludesIssues_eq_true_iff, beq_iff_eq, and_Issues_iff]

theorem pull_requests_eligible_iff (filters : List Filter) (op : Operation) :
    (filterIncludesPullRequests filters && (op.Accepts &&& PullRequests == PullRequests)) = true ↔
      ¬ hasIsFilter false filters ∧ op.Accepts.testBit 1 = true := by
  rw [Bool.and_eq_true, filterIncludesPullRequests_eq_true_iff, beq_iff_eq, and_PullRequests_iff]

/-! ## The claims on `runSingleOperation` -/

/-- C1: for every operation and every filter set holding an `IsFilter` with
`PullRequestOnly = true`, `filterIncludesIssues` returns false and `runSingleOperation`
makes no call of `operations.Run` with the `IssueRunner`, whatever `Accepts()` is and
whatever else the set holds. -/
theorem pull_request_only_excludes_issue_runner {σ : Type} (env : Env σ) (c : Config)
    (op : Operation) (filters : List Filter) (w : World σ)
    (h : hasIsFilter true filters) :
    filterIncludesIssues filters = false ∧
      ∀ result, Event.run Runner.IssueRunner result ∉
        newEvents w (runSingleOperation env c op filters w).2 := by
  have hf := (filterIncludesIssues_eq_false_iff filters).2 h
  refine ⟨hf, fun result => ?_⟩
  rw [runSingleOperation_events]
  simp only [hf, Bool.false_and, Bool.false_eq_true, if_false, List.nil_append]
  split <;> simp

theorem pull_request_only_excludes_issue_runner_witness :
    hasIsFilter true [⟨FilterStrategy.other "label"⟩, ⟨FilterStrategy.IsFilter true⟩] ∧
    (filterIncludesIssues [⟨FilterStrategy.other "label"⟩, ⟨FilterStrategy.IsFilter true⟩]
        = false ∧
      ∀ result, Event.run Runner.IssueRunner result ∉
        newEvents World.initial (runSingleOperation (sampleEnv none none) sampleConfig
          ⟨Issues ||| PullRequests⟩
          [⟨FilterStrategy.other "label"⟩, ⟨FilterStrategy.IsFilter true⟩] World.initial).2) :=
  ⟨by decide, pull_request_only_excludes_issue_runner (sampleEnv none none) sampleConfig
    ⟨Issues ||| PullRequests⟩ [⟨FilterStrategy.other "label"⟩, ⟨FilterStrategy.IsFilter true⟩]
    World.initial (by decide)⟩

/-- C2: for every operation and every filter set holding both an `IsFilter` with
`PullRequestOnly = true` and one with `PullRequestOnly = false`, `runSingleOperation`
calls `operations.Run` zero times, leaves the remote state as it was and returns `nil`. -/
theorem both_kind_restrictions_run_nothing {σ : Type} (env : Env σ) (c : Config)
    (op : Operation) (filters : List Filter) (w : World σ)
    (hpr : hasIsFilter true filters) (hissue : hasIsFilter false filters) :
    newEvents w (runSingleOperation env c op filters w).2 = [] ∧
      (runSingleOperation env c op filters w).2.remote = w.remote ∧
      (runSingleOperation env c op filters w).1 = none := by
  have hi := (filterIncludesIssues_eq_false_iff filters).2 hpr
  have hp := (filterIncludesPullRequests_eq_false_iff filters).2 hissue
  refine ⟨?_, ?_, ?_⟩
  · rw [runSingleOperation_events]; simp [hi, hp]
  · simp [runSingleOperation, runPullRequests_eq, hi, hp]
  · rw [runSingleOperation_result]; simp [hi, hp]

theorem both_kind_restrictions_run_nothing_witness :
    hasIsFilter true [⟨FilterStrategy.IsFilter false⟩, ⟨FilterStrategy.IsFilter true⟩] ∧
    hasIsFilter false [⟨FilterStrategy.IsFilter false⟩, ⟨FilterStrategy.IsFilter true⟩] ∧
    (newEvents World.initial (runSingleOperation (sampleEnv (some "boom") (some "bang"))
        sampleConfig ⟨Issues ||| PullRequests⟩
        [⟨FilterStrategy.IsFilter false⟩, ⟨FilterStrategy.IsFilter true⟩] World.initial).2 = [] ∧
      (runSingleOperation (sampleEnv (some "boom") (some "bang")) sampleConfig
        ⟨Issues ||| PullRequests⟩
        [⟨FilterStrategy.IsFilter false⟩, ⟨FilterStrategy.IsFilter true⟩]
        World.initial).2.remote = World.initial.remote ∧
      (runSingleOperation (sampleEnv (some "boom") (some "bang")) sampleConfig
        ⟨Issues ||| PullRequests⟩
        [⟨FilterStrategy.IsFilter false⟩, ⟨FilterStrategy.IsFilter true⟩]
        World.initial).1 = none) :=
  ⟨by decide, by decide, both_kind_restrictions_run_nothing (sampleEnv (some "boom") (some "bang"))
    sampleConfig ⟨Issues ||| PullRequests⟩
    [⟨FilterStrategy.IsFilter false⟩, ⟨FilterStrategy.IsFilter true⟩] World.initial
    (by decide) (by decide)⟩

/-- C3: for every operation whose `Accepts()` equals `Issues` and every filter set,
`runSingleOperation` makes no call of `operations.Run` with the `PullRequestRunner`. -/
theorem issues_only_operation_excludes_pull_request_runner {σ : Type} (env : Env σ)
    (c : Config) (op : Operation) (filters : List Filter) (w : World σ)
    (h : op.Accepts = Issues) :
    ∀ result, Event.run Runner.PullRequestRunner result ∉
      newEvents w (runSingleOperation env c op filters w).2 := by
  intro result
  have hp : (op.Accepts &&& PullRequests == PullRequests) = false := by
    rw [h]; decide
  rw [runSingleOperation_events]
  simp only [hp, Bool.and_false, Bool.false_eq_true, if_false, List.append_nil]
  split <;> simp

theorem issues_only_operation_excludes_pull_request_runner_witness :
    (⟨Issues⟩ : Operation).Accepts = Issues ∧
    ∀ result, Event.run Runner.PullRequestRunner result ∉
      newEvents World.initial (runSingleOperation (sampleEnv none none) sampleConfig
        ⟨Issues⟩ [] World.initial).2 :=
  ⟨rfl, issues_only_operation_excludes_pull_request_runner (sampleEnv none none) sampleConfig
    ⟨Issues⟩ [] World.initial rfl⟩

/-- C4: the runners `runSingleOperation` invokes are the kind-restriction eligibility
intersected with `Accepts()`. `Run` is called with the `IssueRunner` once exactly when no
`IsFilter` with `PullRequestOnly = true` is in the set and `Accepts()` has the `Issues`
bit, and never more than once; provided no issue run returned an error, `Run` is called
with the `PullRequestRunner` once exactly when no `IsFilter` with `PullRequestOnly = false`
is in the set and `Accepts()` has the `PullRequests` bit, and never more than once. With an
empty filter set and an operation accepting both kinds, as every label operation does,
both run, issues first. -/
theorem runners_are_eligibility_intersected_with_accepts {σ : Type} (env : Env σ)
    (c : Config) (op : Operation) (filters : List Filter) (w : World σ) :
    (runCount Runner.IssueRunner (dispatched env c op filters w) = 1 ↔
        ¬ hasIsFilter true filters ∧ op.Accepts.testBit 0 = true) ∧
      runCount Runner.IssueRunner (dispatched env c op filters w) ≤ 1 ∧
      ((∀ e, Event.run Runner.IssueRunner (some e) ∉ dispatched env c op filters w) →
        (runCount Runner.PullRequestRunner (dispatched env c op filters w) = 1 ↔
          ¬ hasIsFilter false filters ∧ op.Accepts.testBit 1 = true)) ∧
      runCount Runner.PullRequestRunner (dispatched env c op filters w) ≤ 1 ∧
      ((∀ e, Event.run Runner.IssueRunner (some e) ∉ dispatched env c op filters w) →
        filters = [] → op.Accepts.testBit 0 = true → op.Accepts.testBit 1 = true →
        ∃ result, dispatched env c op filters w =
          [Event.run Runner.IssueRunner none, Event.run Runner.PullRequestRunner result]) ∧
      (∀ o : labelOperation,
        o.toOperation.Accepts.testBit 0 = true ∧ o.toOperation.Accepts.testBit 1 = true) := by
  have hev := runSingleOperation_events env c op filters w
  have hI := issues_eligible_iff filters op
  have hP := pull_requests_eligible_iff filters op
  unfold dispatched
  refine ⟨?_, ?_, ?_, ?_, ?_, ?_⟩
  · rw [hev, ← hI]
    by_cases hi : (filterIncludesIssues filters && (op.Accepts &&& Issues == Issues)) = true <;>
      by_cases hp : (filterIncludesPullRequests filters &&
          (op.Accepts &&& PullRequests == PullRequests)) = true
    all_goals
      rcases hr : env.Run c op Runner.IssueRunner filters w.remote with ⟨_ | e, s⟩ <;>
        simp [hi, hp, runCount, Event.isRunOf]
  · rw [hev]
    by_cases hi : (filterIncludesIssues filters && (op.Accepts &&& Issues == Issues)) = true <;>
      by_cases hp : (filterIncludesPullRequests filters &&
          (op.Accepts &&& PullRequests == PullRequests)) = true
    all_goals
      rcases hr : env.Run c op Runner.IssueRunner filters w.remote with ⟨_ | e, s⟩ <;>
        simp [hi, hp, runCount, Event.isRunOf]
  · rw [hev, ← hP]
    by_cases hi : (filterIncludesIssues filters && (op.Accepts &&& Issues == Issues)) = true <;>
      by_cases hp : (filterIncludesPullRequests filters &&
          (op.Accepts &&& PullRequests == PullRequests)) = true
    all_goals
      rcases hr : env.Run c op Runner.IssueRunner filters w.remote with ⟨_ | e, s⟩ <;>
        simp [hi, hp, runCount, Event.isRunOf]
  · rw [hev]
    by_cases hi : (filterIncludesIssues filters && (op.Accepts &&& Issues == Issues)) = true <;>
      by_cases hp : (filterIncludesPullRequests filters &&
          (op.Accepts &&& PullRequests == PullRequests)) = true
    all_goals
      rcases hr : env.Run c op Runner.IssueRunner filters w.remote with ⟨_ | e, s⟩ <;>
        simp [hi, hp, runCount, Event.isRunOf]
  · intro hne hnil h0 h1
    have hi := hI.2 ⟨by simp [hnil, hasIsFilter], h0⟩
    have hp := hP.2 ⟨by simp [hnil, hasIsFilter], h1⟩
    rw [hev] at hne ⊢
    rcases hr : env.Run c op Runner.IssueRunner filters w.remote with ⟨_ | e, s⟩
    · simp [hi, hp]
    · exact absurd (by simp [hi, hp, hr]) (hne e)
  · intro o
    show Nat.testBit (Issues ||| PullRequests) 0 = true ∧
      Nat.testBit (Issues ||| PullRequests) 1 = true
    exact ⟨by decide, by decide⟩

theorem runners_are_eligibility_intersected_with_accepts_witness :
    dispatched (sampleEnv none (some "rate limit")) sampleConfig ⟨Issues ||| PullRequests⟩ []
        World.initial =
      [Event.run Runner.IssueRunner none,
        Event.run Runner.PullRequestRunner (some "rate limit")] ∧
    (runCount Runner.IssueRunner (dispatched (sampleEnv none (some "rate limit")) sampleConfig
        ⟨Issues ||| PullRequests⟩ [] World.initial) = 1 ↔
      ¬ hasIsFilter true [] ∧ (Issues ||| PullRequests).testBit 0 = true) :=
  ⟨by decide, (runners_are_eligibility_intersected_with_accepts
    (sampleEnv none (some "rate limit")) sampleConfig ⟨Issues ||| PullRequests⟩ []
    World.initial).1⟩

/-- C9: `runSingleOperation` is sequential and fail-fast across item kinds. When both
kinds are eligible the issue run comes first and the pull-request run, if any, starts from
the remote state the issue run left; an error `e` of the issue run is returned as it is and
no pull-request run is made; an error of the pull-request run is returned; and `nil` is
returned exactly when every run that was made returned `nil`. -/
theorem run_single_operation_sequential_fail_fast {σ : Type} (env : Env σ)
    (c : Config) (op : Operation) (filters : List Filter) (w : World σ) :
    ((¬ hasIsFilter true filters ∧ op.Accepts.testBit 0 = true) →
      (¬ hasIsFilter false filters ∧ op.Accepts.testBit 1 = true) →
        dispatched env c op filters w =
          Event.run Runner.IssueRunner (env.Run c op Runner.IssueRunner filters w.remote).1 ::
            (if (env.Run c op Runner.IssueRunner filters w.remote).1 = none then
              [Event.run Runner.PullRequestRunner
                (env.Run c op Runner.PullRequestRunner filters
                  (env.Run c op Runner.IssueRunner filters w.remote).2).1]
             else [])) ∧
      (∀ e, Event.run Runner.IssueRunner (some e) ∈ dispatched env c op filters w →
        (runSingleOperation env c op filters w).1 = some e ∧
          ∀ result, Event.run Runner.PullRequestRunner result ∉ dispatched env c op filters w) ∧
      (∀ e, Event.run Runner.PullRequestRunner (some e) ∈ dispatched env c op filters w →
        (runSingleOperation env c op filters w).1 = some e) ∧
      ((runSingleOperation env c op filters w).1 = none ↔
        ∀ runner result, Event.run runner result ∈ dispatched env c op filters w →
          result = none) := by
  have hev := runSingleOperation_events env c op filters w
  have hres := runSingleOperation_result env c op filters w
  have hI := issues_eligible_iff filters op
  have hP := pull_requests_eligible_iff filters op
  unfold dispatched
  rw [hev, hres, ← hI, ← hP]
  by_cases hi : (filterIncludesIssues filters && (op.Accepts &&& Issues == Issues)) = true <;>
    by_cases hp : (filterIncludesPullRequests filters &&
        (op.Accepts &&& PullRequests == PullRequests)) = true
  all_goals
    rcases hr : env.Run c op Runner.IssueRunner filters w.remote with ⟨_ | e, s⟩ <;>
      simp [hi, hp]
  all_goals
    first
      | done
      | (rcases hq : env.Run c op Runner.PullRequestRunner filters s with ⟨_ | e2, s2⟩ <;>
          simp <;> aesop)
      | (rcases hq : env.Run c op Runner.PullRequestRunner filters w.remote with ⟨_ | e2, s2⟩ <;>
          simp)

theorem run_single_operation_sequential_fail_fast_witness :
    Event.run Runner.IssueRunner (some "boom") ∈
        dispatched (sampleEnv (some "boom") none) sampleConfig ⟨Issues ||| PullRequests⟩ []
          World.initial ∧
    ((runSingleOperation (sampleEnv (some "boom") none) sampleConfig
        ⟨Issues ||| PullRequests⟩ [] World.initial).1 = some "boom" ∧
      ∀ result, Event.run Runner.PullRequestRunner result ∉
        dispatched (sampleEnv (some "boom") none) sampleConfig ⟨Issues ||| PullRequests⟩ []
          World.initial) :=
  ⟨by decide, (run_single_operation_sequential_fail_fast (sampleEnv (some "boom") none)
    sampleConfig ⟨Issues ||| PullRequests⟩ [] World.initial).2.1 "boom" (by decide)⟩

/-! ## Lemmas on maps and on the loops of `Filter` -/

theorem GoMap.mem_keys_set {α : Type} (m : GoMap α) (key : String) (value : α) (l : String) :
    l ∈ (m.set key value).keys ↔ l ∈ m.keys ∨ l = key := by
  simp only [GoMap.keys, GoMap.set, List.map_append, List.mem_append, List.mem_map,
    List.mem_filter, List.map_cons, List.map_nil, List.mem_singleton]
  constructor
  · rintro (⟨e, ⟨he, -⟩, rfl⟩ | h)
    · exact Or.inl ⟨e, he, rfl⟩
    · exact Or.inr h
  · rintro (⟨e, he, rfl⟩ | h)
    · by_cases hk : e.1 = key
      · exact Or.inr hk
      · exact Or.inl ⟨e, ⟨he, by simpa using hk⟩, rfl⟩
    · exact Or.inr h

theorem GoMap.contains_iff_mem_keys {α : Type} (m : GoMap α) (key : String) :
    m.contains key = true ↔ key ∈ m.keys := by
  simp [GoMap.contains, GoMap.get?, GoMap.keys]

theorem GoMap.keys_nodup {α : Type} (m : GoMap α) : m.keys.Nodup := m.nodup

theorem GoMap.len_eq_zero_iff {α : Type} (m : GoMap α) : (m.len == 0) = true ↔ m.keys = [] := by
  simp [GoMap.len, GoMap.keys]

theorem mem_keys_matchPatterns (label body : String) (patterns : List Regexp)
    (labelSet : GoMap Unit) (l : String) :
    l ∈ (matchPatterns label body patterns labelSet).keys ↔
      l ∈ labelSet.keys ∨ (l = label ∧ ∃ p ∈ patterns, p.MatchString body = true) := by
  induction patterns with
  | nil => simp [matchPatterns]
  | cons p rest ih =>
    unfold matchPatterns
    by_cases hp : p.MatchString body = true
    · simp [hp, GoMap.mem_keys_set]
    · simp [hp, ih]

theorem mem_keys_collectLabels (body : String) (entries : List (String × List Regexp))
    (labelSet : GoMap Unit) (l : String) :
    l ∈ (collectLabels body entries labelSet).keys ↔
      l ∈ labelSet.keys ∨
        ∃ patterns, (l, patterns) ∈ entries ∧ ∃ p ∈ patterns, p.MatchString body = true := by
  induction entries generalizing labelSet with
  | nil => simp [collectLabels]
  | cons e rest ih =>
    obtain ⟨label, patterns⟩ := e
    unfold collectLabels
    by_cases hc : labelSet.contains label = true
    · have hmem := (GoMap.contains_iff_mem_keys labelSet label).1 hc
      simp only [hc, if_true, ih, List.mem_cons, Prod.mk.injEq]
      constructor
      · rintro (h | ⟨ps, hps, hm⟩)
        · exact Or.inl h
        · exact Or.inr ⟨ps, Or.inr hps, hm⟩
      · rintro (h | ⟨ps, (⟨rfl, rfl⟩ | hps), hm⟩)
        · exact Or.inl h
        · exact Or.inl hmem
        · exact Or.inr ⟨ps, hps, hm⟩
    · simp only [hc, Bool.false_eq_true, if_false, ih, mem_keys_matchPatterns, List.mem_cons,
        Prod.mk.injEq]
      constructor
      · rintro ((h | ⟨rfl, hm⟩) | ⟨ps, hps, hm⟩)
        · exact Or.inl h
        · exact Or.inr ⟨patterns, Or.inl ⟨rfl, rfl⟩, hm⟩
        · exact Or.inr ⟨ps, Or.inr hps, hm⟩
      · rintro (h | ⟨ps, (⟨rfl, rfl⟩ | hps), hm⟩)
        · exact Or.inl (Or.inl h)
        · exact Or.inl (Or.inr ⟨rfl, hm⟩)
        · exact Or.inr ⟨ps, hps, hm⟩

theorem labelSlice_eq_map (visited : List (String × Unit)) :
    labelSlice visited = visited.map Prod.fst := by
  have h : ∀ (l : List (String × Unit)) (init : List String),
      l.foldl (fun labels e => labels ++ [e.1]) init = init ++ l.map Prod.fst := by
    intro l
    induction l with
    | nil => simp
    | cons e rest ih => intro init; simp [ih]
  simpa [labelSlice] using h visited []

theorem itemBody_eq (item : Item) : itemBody item = derefBody item.body := by
  cases item <;> rfl

theorem itemBody_of_body (item : Item) (body : String) (h : item.body = some body) :
    itemBody item = .ok body := by
  rw [itemBody_eq, h]; rfl

theorem itemBody_of_nil_body (item : Item) (h : item.body = none) :
    itemBody item =
      .error "runtime error: invalid memory address or nil pointer dereference" := by
  rw [itemBody_eq, h]; rfl

theorem itemNumber_eq (item : Item) : itemNumber item = .ok item.number := by
  cases item <;> rfl

/-- The label set `Filter` collects holds exactly the labels with a matching pattern. -/
theorem mem_collected_iff (o : labelOperation) (patternsOrder : RangeOrder (List Regexp))
    (body : String) (l : String) :
    l ∈ (collectLabels body (patternsOrder.visit o.patterns.entries) GoMap.empty).keys ↔
      labelMatches o body l := by
  rw [mem_keys_collectLabels]
  simp only [GoMap.keys, GoMap.empty, List.map_nil, List.not_mem_nil, false_or, labelMatches,
    (patternsOrder.perm o.patterns.entries).mem_iff]

/-- On an item with a body the method `Filter` returns, with a `nil` error: Reject and
`nil` when the collected set is empty, otherwise Accept and the keys of the set in the
order visited. -/
theorem Filter_eq (o : labelOperation) (patternsOrder : RangeOrder (List Regexp))
    (labelSetOrder : RangeOrder Unit) (item : Item) (body : String)
    (hbody : item.body = some body) :
    o.Filter patternsOrder labelSetOrder item =
      if (collectLabels body (patternsOrder.visit o.patterns.entries) GoMap.empty).keys = []
      then .ok (FilterResult.Reject, UserData.nil, none)
      else .ok (FilterResult.Accept, UserData.strings ((labelSetOrder.visit
        (collectLabels body (patternsOrder.visit o.patterns.entries)
          GoMap.empty).entries).map Prod.fst), none) := by
  unfold labelOperation.Filter
  rw [itemBody_of_body item body hbody]
  simp only [GoMap.len_eq_zero_iff, labelSlice_eq_map]

/-- On an item whose `Body` is `nil` the method `Filter` panics in `itemBody`. -/
theorem Filter_of_nil_body (o : labelOperation) (patternsOrder : RangeOrder (List Regexp))
    (labelSetOrder : RangeOrder Unit) (item : Item) (hbody : item.body = none) :
    o.Filter patternsOrder labelSetOrder item =
      .error "runtime error: invalid memory address or nil pointer dereference" := by
  unfold labelOperation.Filter
  rw [itemBody_of_nil_body item hbody]

/-- An item the method `Filter` returns on has a body. -/
theorem body_of_Filter_ok (o : labelOperation) (patternsOrder : RangeOrder (List Regexp))
    (labelSetOrder : RangeOrder Unit) (item : Item)
    (r : FilterResult × UserData × Option Error)
    (h : o.Filter patternsOrder labelSetOrder item = .ok r) :
    ∃ body, item.body = some body := by
  cases hb : item.body with
  | some body => exact ⟨body, rfl⟩
  | none =>
    rw [Filter_of_nil_body o patternsOrder labelSetOrder item hb] at h
    cases h

theorem collected_eq_nil_iff (o : labelOperation) (patternsOrder : RangeOrder (List Regexp))
    (body : String) :
    (collectLabels body (patternsOrder.visit o.patterns.entries) GoMap.empty).keys = [] ↔
      ¬ ∃ label, labelMatches o body label := by
  rw [List.eq_nil_iff_forall_not_mem]
  simp only [mem_collected_iff, not_exists]

/-! ## The claims on the label operation -/

/-- C5, as stated, fails: on an issue whose `Body` is `nil` the method `Filter` neither
accepts nor rejects, it panics in `itemBody`. -/
theorem label_filter_panics_on_nil_body :
    sampleLabelOperation.Filter (RangeOrder.listed _) (RangeOrder.listed _)
        (Item.issue ⟨9, none⟩) =
      .error "runtime error: invalid memory address or nil pointer dereference" ∧
    ¬ ∃ r, sampleLabelOperation.Filter (RangeOrder.listed _) (RangeOrder.listed _)
        (Item.issue ⟨9, none⟩) = .ok r := by
  refine ⟨rfl, ?_⟩
  rintro ⟨r, hr⟩
  have h : sampleLabelOperation.Filter (RangeOrder.listed _) (RangeOrder.listed _)
      (Item.issue ⟨9, none⟩) =
      .error "runtime error: invalid memory address or nil pointer dereference" := rfl
  rw [h] at hr
  cases hr

/-- C5, amended: for every label operation and every item that has a body, `Filter`
returns Accept exactly when some label has a pattern matching the body, and otherwise
Reject with `nil` userData; it returns, and the error is `nil` in both cases. -/
theorem label_filter_accepts_iff_some_pattern_matches (o : labelOperation)
    (patternsOrder : RangeOrder (List Regexp)) (labelSetOrder : RangeOrder Unit) (item : Item)
    (body : String) (hbody : item.body = some body) :
    ((∃ userData err, o.Filter patternsOrder labelSetOrder item =
          .ok (FilterResult.Accept, userData, err)) ↔
        ∃ label, labelMatches o body label) ∧
      ((¬ ∃ label, labelMatches o body label) →
        o.Filter patternsOrder labelSetOrder item =
          .ok (FilterResult.Reject, UserData.nil, none)) ∧
      (∃ result userData, o.Filter patternsOrder labelSetOrder item =
        .ok (result, userData, none)) := by
  have hF := Filter_eq o patternsOrder labelSetOrder item body hbody
  have hnil := collected_eq_nil_iff o patternsOrder body
  by_cases hm : ∃ label, labelMatches o body label
  · have hne : ¬ (collectLabels body (patternsOrder.visit o.patterns.entries)
        GoMap.empty).keys = [] := fun h => (hnil.1 h) hm
    rw [if_neg hne] at hF
    exact ⟨⟨fun _ => hm, fun _ => ⟨_, _, hF⟩⟩, fun h => absurd hm h, ⟨_, _, hF⟩⟩
  · rw [if_pos (hnil.2 hm)] at hF
    refine ⟨⟨?_, fun h => absurd h hm⟩, fun _ => hF, ⟨_, _, hF⟩⟩
    rintro ⟨userData, err, h⟩
    rw [hF] at h
    simp at h

theorem label_filter_accepts_iff_some_pattern_matches_witness :
    sampleLabelOperation.Filter (RangeOrder.listed _) (RangeOrder.listed _)
        (Item.issue ⟨7, some "this is a crash bug"⟩) =
      .ok (FilterResult.Accept, UserData.strings ["bug"], none) ∧
    (Item.pullRequest ⟨8, some "nothing relevant"⟩).body = some "nothing relevant" ∧
    (¬ ∃ label, labelMatches sampleLabelOperation "nothing relevant" label) ∧
    sampleLabelOperation.Filter (RangeOrder.listed _) (RangeOrder.listed _)
        (Item.pullRequest ⟨8, some "nothing relevant"⟩) =
      .ok (FilterResult.Reject, UserData.nil, none) := by
  have hno : ¬ ∃ label, labelMatches sampleLabelOperation "nothing relevant" label := by
    rintro ⟨label, patterns, hmem, p, hp, hmatch⟩
    simp only [sampleLabelOperation, List.mem_cons, Prod.mk.injEq, List.mem_singleton,
      List.not_mem_nil, or_false] at hmem
    rcases hmem with ⟨-, rfl⟩ | ⟨-, rfl⟩
    · simp only [List.mem_singleton] at hp
      subst hp
      exact absurd hmatch (by decide)
    · simp only [List.mem_singleton] at hp
      subst hp
      exact absurd hmatch (by decide)
  exact ⟨rfl, rfl, hno, (label_filter_accepts_iff_some_pattern_matches sampleLabelOperation
    (RangeOrder.listed _) (RangeOrder.listed _)
    (Item.pullRequest ⟨8, some "nothing relevant"⟩) "nothing relevant" rfl).2.1 hno⟩

/-- C6: for every label operation and every item `Filter` accepts, the item has a body
and the userData is a list of labels without duplicates whose elements are exactly the
labels with at least one pattern matching that body, each of them once. -/
theorem label_filter_user_data_is_matching_labels (o : labelOperation)
    (patternsOrder : RangeOrder (List Regexp)) (labelSetOrder : RangeOrder Unit) (item : Item)
    (userData : UserData) (err : Option Error)
    (h : o.Filter patternsOrder labelSetOrder item = .ok (FilterResult.Accept, userData, err)) :
    ∃ body, item.body = some body ∧
      ∃ labels, userData = UserData.strings labels ∧ labels.Nodup ∧
        (∀ l, l ∈ labels ↔ labelMatches o body l) ∧
        (∀ l, labelMatches o body l → labels.count l = 1) := by
  obtain ⟨body, hbody⟩ := body_of_Filter_ok o patternsOrder labelSetOrder item _ h
  refine ⟨body, hbody, ?_⟩
  rw [Filter_eq o patternsOrder labelSetOrder item body hbody] at h
  split at h
  · simp at h
  · simp only [Except.ok.injEq, Prod.mk.injEq, true_and] at h
    obtain ⟨hud, -⟩ := h
    have hperm := labelSetOrder.perm (collectLabels body
      (patternsOrder.visit o.patterns.entries) GoMap.empty).entries
    have hnodup : ((labelSetOrder.visit (collectLabels body
        (patternsOrder.visit o.patterns.entries) GoMap.empty).entries).map Prod.fst).Nodup :=
      ((hperm.map Prod.fst).nodup_iff).2 (GoMap.keys_nodup _)
    have hmem : ∀ l, l ∈ (labelSetOrder.visit (collectLabels body
        (patternsOrder.visit o.patterns.entries) GoMap.empty).entries).map Prod.fst ↔
        labelMatches o body l := by
      intro l
      rw [(hperm.map Prod.fst).mem_iff]
      exact mem_collected_iff o patternsOrder body l
    refine ⟨_, hud.symm, hnodup, hmem, fun l hl => ?_⟩
    exact List.count_eq_one_of_mem hnodup ((hmem l).2 hl)

theorem label_filter_user_data_is_matching_labels_witness :
    sampleLabelOperation.Filter (RangeOrder.reversed _) (RangeOrder.reversed _)
        (Item.issue ⟨7, some "this is a crash bug"⟩) =
      .ok (FilterResult.Accept, UserData.strings ["bug"], none) ∧
    twoPatternLabelOperation.Filter (RangeOrder.reversed _) (RangeOrder.listed _)
        (Item.issue ⟨7, some "this is a crash bug"⟩) =
      .ok (FilterResult.Accept, UserData.strings ["bug"], none) ∧
    ∃ body, (Item.issue ⟨7, some "this is a crash bug"⟩).body = some body ∧
      ∃ labels, UserData.strings ["bug"] = UserData.strings labels ∧ labels.Nodup ∧
        (∀ l, l ∈ labels ↔ labelMatches twoPatternLabelOperation body l) ∧
        (∀ l, labelMatches twoPatternLabelOperation body l → labels.count l = 1) :=
  ⟨rfl, rfl, label_filter_user_data_is_matching_labels twoPatternLabelOperation
    (RangeOrder.reversed _) (RangeOrder.listed _)
    (Item.issue ⟨7, some "this is a crash bug"⟩) (UserData.strings ["bug"]) none rfl⟩

/-- C7 (the code departs from it): whenever `Filter` accepts an item with userData `u`,
`u` is a `[]string`, and `Apply` called with that `u` panics in the type assertion
`userData.(string)` before any `AddLabelsToIssue` call is made. -/
theorem label_apply_panics_on_filter_user_data {σ : Type} (o : labelOperation)
    (patternsOrder : RangeOrder (List Regexp)) (labelSetOrder : RangeOrder Unit) (item : Item)
    (userData : UserData) (err : Option Error) (c : Context σ) (w : Remote σ)
    (h : o.Filter patternsOrder labelSetOrder item = .ok (FilterResult.Accept, userData, err)) :
    (∃ labels, userData = UserData.strings labels) ∧
      o.Apply c item userData w =
        .error "interface conversion: interface \x7b\x7d is []string, not string" := by
  obtain ⟨body, hbody⟩ := body_of_Filter_ok o patternsOrder labelSetOrder item _ h
  rw [Filter_eq o patternsOrder labelSetOrder item body hbody] at h
  split at h
  · simp at h
  · simp only [Except.ok.injEq, Prod.mk.injEq, true_and] at h
    obtain ⟨hud, -⟩ := h
    subst hud
    refine ⟨⟨_, rfl⟩, ?_⟩
    simp only [labelOperation.Apply, itemNumber_eq]

theorem label_apply_panics_on_filter_user_data_witness :
    sampleLabelOperation.Filter (RangeOrder.listed _) (RangeOrder.listed _)
        (Item.issue ⟨7, some "this is a crash bug"⟩) =
      .ok (FilterResult.Accept, UserData.strings ["bug"], none) ∧
    ((∃ labels, UserData.strings ["bug"] = UserData.strings labels) ∧
      sampleLabelOperation.Apply sampleContext (Item.issue ⟨7, some "this is a crash bug"⟩)
          (UserData.strings ["bug"]) ⟨0, []⟩ =
        .error "interface conversion: interface \x7b\x7d is []string, not string") :=
  ⟨rfl, label_apply_panics_on_filter_user_data sampleLabelOperation (RangeOrder.listed _)
    (RangeOrder.listed _) (Item.issue ⟨7, some "this is a crash bug"⟩)
    (UserData.strings ["bug"]) none sampleContext ⟨0, []⟩ rfl⟩

/-! ## Lemmas on `Describe` -/

theorem intercalate_go_eq_foldl (sep : String) (rest : List String) (acc : String) :
    String.intercalate.go acc sep rest = rest.foldl (fun b s => b ++ sep ++ s) acc := by
  induction rest generalizing acc with
  | nil => rfl
  | cons a as ih => simp [String.intercalate.go, ih]

theorem stringsJoin_eq_intercalate (elems : List String) (sep : String) :
    stringsJoin elems sep = String.intercalate sep elems := by
  match elems with
  | [] => rfl
  | [e] => rfl
  | e :: f :: rest =>
    simp only [stringsJoin, String.intercalate, intercalate_go_eq_foldl]

theorem formatDecimal_eq_toString (n : Int) : formatDecimal n = toString n := by
  cases n with
  | ofNat m =>
    have h : ¬ ((m : Int) < 0) := not_lt.2 (Int.ofNat_nonneg m)
    simp [formatDecimal, toString, instToStringInt, h]
  | negSucc m =>
    simp [formatDecimal, toString, instToStringInt, Int.negSucc_lt_zero]

theorem sprintfChars_describe (joined : String) (number : Int) :
    sprintfChars "Adding labels %s to item #%d".toList [FmtArg.str joined, FmtArg.int number] =
      "Adding labels ".toList ++ (joined.toList ++ (" to item #".toList ++
        (formatDecimal number).toList)) := by
  simp [String.toList, sprintfChars, formatVerb]

theorem Sprintf_describe (joined : String) (number : Int) :
    Sprintf "Adding labels %s to item #%d" [FmtArg.str joined, FmtArg.int number] =
      "Adding labels " ++ joined ++ " to item #" ++ formatDecimal number := by
  unfold Sprintf
  rw [sprintfChars_describe]
  apply String.ext
  simp [String.data_append, String.toList]

/-- C8: for every item and every userData that is a list of labels, `Describe` returns
"Adding labels ", the labels joined with ", " in list order, " to item #" and the number
in decimal; the number is that of the issue for an issue and that of the pull request for
a pull request. -/
theorem label_describe_renders_labels_and_number {σ : Type} (o : labelOperation)
    (c : Context σ) (labels : List String) :
    (∀ i : Issue, o.Describe c (Item.issue i) (UserData.strings labels) =
        .ok (describeSpec labels i.Number)) ∧
      (∀ p : PullRequest, o.Describe c (Item.pullRequest p) (UserData.strings labels) =
        .ok (describeSpec labels p.Number)) := by
  constructor <;> intro x <;>
    simp only [labelOperation.Describe, itemNumber_eq, Item.number, Sprintf_describe,
      stringsJoin_eq_intercalate, formatDecimal_eq_toString, describeSpec]

theorem label_describe_renders_labels_and_number_witness :
    sampleLabelOperation.Describe sampleContext (Item.issue ⟨42, some "this is a crash bug"⟩)
        (UserData.strings ["bug", "docs"]) = .ok "Adding labels bug, docs to item #42" ∧
    sampleLabelOperation.Describe sampleContext (Item.pullRequest ⟨-3, some "typo"⟩)
        (UserData.strings ["docs"]) = .ok (describeSpec ["docs"] (-3)) :=
  ⟨rfl, (label_describe_renders_labels_and_number sampleLabelOperation sampleContext
    ["docs"]).2 ⟨-3, some "typo"⟩⟩

/-! ## Lemmas on `makeOperation` -/

theorem forEachValue_compile_eq_none_iff (compile : String → Except Error Regexp)
    (key : String) (values : List String) (patterns : GoMap (List Regexp)) :
    (forEachValue key (compilePattern compile) values patterns).1 = none ↔
      ∀ value ∈ values, ∃ re, compile value = .ok re := by
  induction values generalizing patterns with
  | nil => simp [forEachValue]
  | cons v rest ih =>
    unfold forEachValue
    cases hv : compile v with
    | error e => simp [compilePattern, hv, errorsWrap]
    | ok re => simp [compilePattern, hv, ih]

theorem forEachEntry_compile_eq_none_iff (compile : String → Except Error Regexp)
    (entries : List (String × List String)) (patterns : GoMap (List Regexp)) :
    (forEachEntry (compilePattern compile) entries patterns).1 = none ↔
      ∀ entry ∈ entries, ∀ value ∈ entry.2, ∃ re, compile value = .ok re := by
  induction entries generalizing patterns with
  | nil => simp [forEachEntry]
  | cons entry rest ih =>
    obtain ⟨key, values⟩ := entry
    unfold forEachEntry
    have hv := forEachValue_compile_eq_none_iff compile key values patterns
    rcases hr : forEachValue key (compilePattern compile) values patterns with ⟨_ | e, s⟩
    · rw [hr] at hv
      simp only [ih, List.mem_cons, forall_eq_or_imp]
      exact ⟨fun h => ⟨hv.1 rfl, h⟩, fun h => h.2⟩
    · rw [hr] at hv
      simp only [List.mem_cons, forall_eq_or_imp]
      constructor
      · intro h; simp at h
      · intro h; exact absurd (hv.2 h.1) (by simp)

/-- The method `makeOperation` returns an error as soon as one pattern does not compile. -/
theorem makeOperation_error_of_bad_pattern (lenv : LabelEnv) (config : labelOperationConfig)
    (key : String) (values : List String) (value : String) (e : Error)
    (hentry : (key, values) ∈ config.Patterns.entries) (hvalue : value ∈ values)
    (hbad : lenv.Compile value = .error e) :
    ∃ err, (makeOperation lenv config).2 = some err := by
  cases h : (makeOperation lenv config).2 with
  | some err => exact ⟨err, rfl⟩
  | none =>
    exfalso
    simp only [makeOperation, MultiValuedKeys.ForEach] at h
    rw [forEachEntry_compile_eq_none_iff] at h
    obtain ⟨re, hre⟩ := h (key, values)
      ((lenv.order.perm config.Patterns.entries).mem_iff.2 hentry) value hvalue
    rw [hbad] at hre
    cases hre

/-! ## The claim on `executeSingleOperation` -/

/-- C10: `executeSingleOperation` reaches the engine only after every setup step has
succeeded. When `config.Validate` fails, or `ParseCliFilters` fails, or the descriptor's
`OperationFromCli` fails, that step's error is returned, none of the later steps is made,
the remote state is untouched and no `operations.Run` is logged; the label descriptor
fails in this way when a pattern does not compile; and when the three steps succeed the
result is that of `runSingleOperation`. -/
theorem execute_single_operation_aborts_before_engine {σ : Type} (env : Env σ)
    (c : CliContext) (descriptor : OperationDescriptor) (w : World σ) :
    (∀ e, env.Validate (env.FromGlobalFlags c) = some e →
      executeSingleOperation env c descriptor w =
        .ok (some e, { remote := w.remote,
                       log := w.log ++ [Event.fromGlobalFlags, Event.validate] })) ∧
    (env.Validate (env.FromGlobalFlags c) = none →
      ∀ e, (env.ParseCliFilters c).2 = some e →
        executeSingleOperation env c descriptor w =
          .ok (some e, { remote := w.remote,
                         log := w.log ++ [Event.fromGlobalFlags, Event.validate,
                           Event.parseCliFilters] })) ∧
    (env.Validate (env.FromGlobalFlags c) = none → (env.ParseCliFilters c).2 = none →
      ∀ e, (descriptor.OperationFromCli c).2 = some e →
        executeSingleOperation env c descriptor w =
          .ok (some e, { remote := w.remote,
                         log := w.log ++ [Event.fromGlobalFlags, Event.validate,
                           Event.parseCliFilters, Event.operationFromCli] })) ∧
    (∀ (lenv : LabelEnv) (patterns : MultiValuedKeys) (key : String) (values : List String)
        (value : String) (e : Error),
      lenv.NewMultiValuedKeysFromSlice c.Args = (patterns, none) →
      (key, values) ∈ patterns.entries → value ∈ values → lenv.Compile value = .error e →
        ∃ err, ((labelDescriptor lenv).OperationFromCli c).2 = some err) ∧
    (env.Validate (env.FromGlobalFlags c) = none → (env.ParseCliFilters c).2 = none →
      ∀ op, descriptor.OperationFromCli c = (some op, none) →
        executeSingleOperation env c descriptor w =
          .ok (runSingleOperation env (env.FromGlobalFlags c) op (env.ParseCliFilters c).1
            { remote := w.remote,
              log := w.log ++ [Event.fromGlobalFlags, Event.validate,
                Event.parseCliFilters, Event.operationFromCli] })) := by
  refine ⟨?_, ?_, ?_, ?_, ?_⟩
  · intro e hv
    simp [executeSingleOperation, hv]
  · intro hv e hp
    rcases hpf : env.ParseCliFilters c with ⟨f, perr⟩
    rw [hpf] at hp
    simp only at hp
    subst hp
    simp [executeSingleOperation, hv, hpf]
  · intro hv hp e hd
    rcases hpf : env.ParseCliFilters c with ⟨f, perr⟩
    rw [hpf] at hp
    simp only at hp
    subst hp
    rcases hdf : descriptor.OperationFromCli c with ⟨op, derr⟩
    rw [hdf] at hd
    simp only at hd
    subst hd
    simp [executeSingleOperation, hv, hpf, hdf]
  · intro lenv patterns key values value e hparse hentry hvalue hbad
    simp only [labelDescriptor, labelOperationFromCli, hparse]
    exact makeOperation_error_of_bad_pattern lenv { Patterns := patterns } key values value e
      hentry hvalue hbad
  · intro hv hp op hd
    rcases hpf : env.ParseCliFilters c with ⟨f, perr⟩
    rw [hpf] at hp
    simp only at hp
    subst hp
    simp [executeSingleOperation, hv, hpf, hd]

theorem execute_single_operation_aborts_before_engine_witness :
    executeSingleOperation (sampleEnv none none)
        ⟨["crash", "("], [("repository", "docker/docker")]⟩ (labelDescriptor sampleLabelEnv)
        World.initial =
      .ok (some "invalid pattern: missing closing )",
        { remote := 0,
          log := [Event.fromGlobalFlags, Event.validate, Event.parseCliFilters,
            Event.operationFromCli] }) ∧
    executeSingleOperation (sampleEnv none none) ⟨["crash"], []⟩
        (labelDescriptor sampleLabelEnv) World.initial =
      .ok (some "repository missing",
        { remote := World.initial.remote,
          log := World.initial.log ++ [Event.fromGlobalFlags, Event.validate] }) :=
  ⟨rfl, (execute_single_operation_aborts_before_engine (sampleEnv none none)
    ⟨["crash"], []⟩ (labelDescriptor sampleLabelEnv) World.initial).1 "repository missing"
    (by decide)⟩

end Poule
